import Mathlib

/-!
Shallow embedding of the gmail-pub-sub webhook service (src/main.py) and
proofs about the claims of its specification.

Conventions of the embedding:
* Timestamps are integers (an abstract linear time axis); the external date
  parser `email.utils.parsedate_to_datetime` is passed in as a function
  `pd : String -> Option Int` (`none` models a parse exception).
* The base64url body decoder is passed in as a function `dec : String -> String`;
  the claims are only about WHICH part's decoded data is returned, never about
  the decoding itself.
* Remote Gmail API behaviour is an environment record `GmailEnv`; `none`
  results model a raised exception on the corresponding remote call.
* Python `set`s are lists with membership-aware insertion; the Python value
  `None` stored in `PROCESSED_HISTORY_IDS` (possible because
  `notif.get("historyId")` can return `None`) is modelled by `Option String`
  elements.
* Every remote call and persistence action performed by the handler is
  recorded in an `Effect` trace so that "no remote calls are made" is a
  provable statement.
-/

/-- Python's `str.startswith`, modelled on the character list so that it
evaluates inside the kernel. -/
def strStartsWith (s pre : String) : Bool := pre.data.isPrefixOf s.data

/-- Python's `str.lower`, modelled on the character list so that it evaluates
inside the kernel. -/
def lowerStr (s : String) : String := String.mk (s.data.map Char.toLower)

/-- The `body` object of a Gmail message part: optional `data`, `size` and
`attachmentId` keys. -/
structure PartBody where
  data : Option String
  size : Option Nat
  attachmentId : Option String
deriving Repr, DecidableEq

/-- A Gmail message part / payload: `mimeType`, optional `filename`, a flat
`headers` list of name-value pairs, a `body`, and an optional `parts` list
(`none` models the absence of the `parts` key; `some []` models a present but
empty list). -/
inductive Payload where
  | mk (mimeType : String) (filename : Option String)
       (headers : List (String × String)) (body : PartBody)
       (parts : Option (List Payload))

def Payload.mimeType : Payload → String
  | .mk m _ _ _ _ => m

def Payload.filename : Payload → Option String
  | .mk _ f _ _ _ => f

def Payload.headers : Payload → List (String × String)
  | .mk _ _ h _ _ => h

def Payload.body : Payload → PartBody
  | .mk _ _ _ b _ => b

def Payload.parts : Payload → Option (List Payload)
  | .mk _ _ _ _ p => p

/-- A Gmail message as returned by `users().messages().get`: an optional
`payload` and a `snippet`. -/
structure Message where
  payload : Option Payload
  snippet : String

/-!
Body extraction, main.py lines 184-208 (`extract_body` and its inner
`_extract_body_recursive`).  When the payload has a `parts` key a first loop
scans the children: a `text/plain` child with `data` returns at once, a child
whose mime type starts with `multipart/` is recursed into and any non-empty
result (Python truthiness of the string) is returned; if the first loop falls
through, a second loop returns the first `text/html` child with `data`.
A payload without `parts` is a leaf: `text/plain` then `text/html`.
-/
mutual

def extractBodyRec (dec : String → String) : Payload → String
  | .mk mt _ _ b none =>
      match b.data with
      | some d => if mt = "text/plain" then dec d
                  else if mt = "text/html" then dec d
                  else ""
      | none => ""
  | .mk _ _ _ _ (some cs) =>
      match bodyFirstLoop dec cs with
      | some r => r
      | none => bodyHtmlLoop dec cs

def bodyFirstLoop (dec : String → String) : List Payload → Option String
  | [] => none
  | c :: rest =>
      match (if c.mimeType = "text/plain" then c.body.data else none) with
      | some d => some (dec d)
      | none =>
          if strStartsWith c.mimeType "multipart/" then
            match extractBodyRec dec c with
            | "" => bodyFirstLoop dec rest
            | r => some r
          else bodyFirstLoop dec rest

def bodyHtmlLoop (dec : String → String) : List Payload → String
  | [] => ""
  | c :: rest =>
      match (if c.mimeType = "text/html" then c.body.data else none) with
      | some d => dec d
      | none => bodyHtmlLoop dec rest

end

/-- Entry point of body extraction (main.py line 184). -/
def extract_body (dec : String → String) (p : Payload) : String := extractBodyRec dec p

/-- One collected attachment-metadata entry (main.py lines 218-223):
`size` defaults to 0 and `attachmentId` may be absent. -/
structure AttachmentInfo where
  filename : String
  mimeType : String
  size : Nat
  attachmentId : Option String
deriving Repr, DecidableEq

/-- Python truthiness of the `filename` key: present and non-empty. -/
def fnNonEmpty : Option String → Bool
  | some s => s ≠ ""
  | none => false

/-!
Attachment-metadata extraction, main.py lines 210-229
(`extract_attachment_info` / `_extract_attachments_recursive`).  Only the
`parts` list of the argument is scanned; a child with a truthy `filename` is
collected (and NOT recursed into — the `elif`); a child without one is
recursed into when it has a `parts` key.
-/
mutual

def extract_attachment_info : Payload → List AttachmentInfo
  | .mk _ _ _ _ none => []
  | .mk _ _ _ _ (some cs) => attachLoop cs

def attachLoop : List Payload → List AttachmentInfo
  | [] => []
  | c :: rest => attachEntry c ++ attachLoop rest

def attachEntry : Payload → List AttachmentInfo
  | .mk mt fn _ b none =>
      if fnNonEmpty fn then
        [⟨fn.getD "", mt, b.size.getD 0, b.attachmentId⟩]
      else []
  | .mk mt fn _ b (some cs) =>
      if fnNonEmpty fn then
        [⟨fn.getD "", mt, b.size.getD 0, b.attachmentId⟩]
      else attachLoop cs

end

/-- The lower-cased header dictionary built at main.py lines 128-131 and
160-163 (`headers[header[name].lower()] = header[value]`, last write wins),
looked up at a lower-case key. -/
def lookupHeader (hs : List (String × String)) (k : String) : Option String :=
  (hs.filterMap (fun nv => if lowerStr nv.1 = k then some nv.2 else none)).getLast?

/-- The headers of a message live on its payload (main.py lines 129-131);
a missing payload yields the empty dictionary. -/
def msgHeaders (m : Message) : List (String × String) :=
  match m.payload with
  | none => []
  | some pl => pl.headers

/-- The `headers.get('date', '')` expression of main.py line 133. -/
def dateStr (m : Message) : String := (lookupHeader (msgHeaders m) "date").getD ""

/-- main.py lines 125-143, `is_message_after_start_time`: empty/absent date
header gives `false`; a parse exception (modelled by `pd _ = none`) is caught
and gives `false`; otherwise the comparison `message_date >= APP_START_TIME`. -/
def is_message_after_start_time (pd : String → Option Int) (startTime : Int)
    (m : Message) : Bool :=
  let ds := dateStr m
  if ds = "" then false
  else
    match pd ds with
    | none => false
    | some t => startTime ≤ t

/-- The normalized record built by `get_email_details` (main.py lines 169-179). -/
structure EmailDetails where
  messageId : String
  subject : String
  fromAddr : String
  toAddr : String
  date : String
  body : String
  attachments : List AttachmentInfo
  snippet : String
  processedAt : Int
deriving Repr, DecidableEq

/-- Remote Gmail API behaviour plus the external collaborators an invocation
uses. `authOk = false` models `get_gmail_service` raising; `listResult = none`
models `users().messages().list(...).execute()` raising, `some ids` its
(server-side capped at `maxResults=50`) response ids; `getMessage i = none`
models `users().messages().get` raising for id `i`; `getAttachment m a = none`
models `users().messages().attachments().get` raising.  `historyList` is what
an incremental `users().history().list` diff query WOULD return (`none` =
range expired/invalid); main.py never consults it — it exists so that the
specification's resolver algorithm can be stated and compared. -/
structure GmailEnv where
  authOk : Bool
  listResult : Option (List String)
  historyList : Option (List String)
  getMessage : String → Option Message
  getAttachment : String → String → Option String
  dec : String → String
  pd : String → Option Int
  now : Int

/-- main.py lines 145-182, `get_email_details`.  The whole body is wrapped in
`try/except` returning `None`; a remote-get exception is `getMessage = none`,
and a message whose payload is absent would raise a `KeyError` at
`extract_body(message['payload'])` (caught, `None`). A message that fails the
`is_message_after_start_time` re-check returns `None` (absent, not an error). -/
def get_email_details (env : GmailEnv) (startTime : Int)
    (message_id : String) : Option EmailDetails :=
  match env.getMessage message_id with
  | none => none
  | some message =>
      if is_message_after_start_time env.pd startTime message then
        match message.payload with
        | none => none
        | some pl =>
            let headers := msgHeaders message
            some { messageId := message_id
                 , subject := (lookupHeader headers "subject").getD "No Subject"
                 , fromAddr := (lookupHeader headers "from").getD "Unknown Sender"
                 , toAddr := (lookupHeader headers "to").getD "Unknown Recipient"
                 , date := (lookupHeader headers "date").getD "Unknown Date"
                 , body := extract_body env.dec pl
                 , attachments := extract_attachment_info pl
                 , snippet := message.snippet
                 , processedAt := env.now }
      else none

/-- The process-wide mutable state of main.py lines 24-26: `APP_START_TIME`,
`PROCESSED_MESSAGES` and `PROCESSED_HISTORY_IDS`.  The history-id set is a set
of `Option String` because `notif.get("historyId")` can be Python `None` and
`None` is insertable into a Python set. -/
structure AppState where
  appStartTime : Int
  processedMessages : List String
  processedHistoryIds : List (Option String)
deriving Repr, DecidableEq

/-- Remote calls and persistence actions a webhook invocation performs, in
order.  `listMessages t` records the `users().messages().list` call whose
query is built from the start time `t` (`after:<date of t> in:inbox is:unread`,
`maxResults=50`); `historyDiff` records a `users().history().list` incremental
query (which main.py never performs); `saveState` records `save_app_state()`. -/
inductive Effect where
  | listMessages (afterStart : Int)
  | historyDiff (fromId : String)
  | getMessage (id : String)
  | downloadAttachment (messageId attachmentId : String)
  | saveEmailJson (messageId : String)
  | markRead (id : String)
  | saveState
deriving Repr, DecidableEq

/-- Python `set.add` on a list-modelled set. -/
def insertIfAbsent {α : Type} [DecidableEq α] (x : α) (l : List α) : List α :=
  if x ∈ l then l else x :: l

/-- Python `set.discard` on a list-modelled set. -/
def setDiscard {α : Type} [DecidableEq α] (x : α) (l : List α) : List α :=
  l.filter (fun y => y ≠ x)

/-- main.py lines 96-123, `get_new_messages`: one bounded list query
(`after:<date of start time> in:inbox is:unread`, `maxResults=50`), then the
ids not already in `PROCESSED_MESSAGES`.  The whole body is inside
`try/except ... return []`, so a failed list query (`listResult = none`)
yields the empty list, not an error.  No history-diff query is issued and no
last-observed history id exists anywhere in the source. -/
def get_new_messages (env : GmailEnv) (startTime : Int) (processed : List String) :
    List String × List Effect :=
  match env.listResult with
  | none => ([], [Effect.listMessages startTime])
  | some ids => (ids.filter (fun i => i ∉ processed), [Effect.listMessages startTime])

/-- The response summary entry built per processed email (main.py 395-401). -/
structure EmailSummary where
  messageId : String
  subject : String
  fromAddr : String
  attachments : Nat
  downloadedAttachments : Nat
deriving Repr, DecidableEq

/-- The attachment-download loop of `process_email` (main.py lines 296-311):
attachments with a truthy `attachmentId` are fetched via
`download_attachment`; a fetch/write failure (modelled `getAttachment = none`)
is logged and the attachment omitted from the downloaded list. -/
def downloadAll (env : GmailEnv) (message_id : String) :
    List AttachmentInfo → List AttachmentInfo × List Effect
  | [] => ([], [])
  | a :: rest =>
      let dres := downloadAll env message_id rest
      match a.attachmentId with
      | some aid =>
          if aid ≠ "" then
            match env.getAttachment message_id aid with
            | some _ => (a :: dres.1, Effect.downloadAttachment message_id aid :: dres.2)
            | none => (dres.1, Effect.downloadAttachment message_id aid :: dres.2)
          else dres
      | none => dres

/-- main.py lines 285-333, `process_email`: fetch and normalize (absent result
short-circuits), download attachments, save the JSON record, add the id to
`PROCESSED_MESSAGES`, mark the remote message read, persist the state. -/
def process_email (env : GmailEnv) (s : AppState) (message_id : String) :
    Option EmailSummary × AppState × List Effect :=
  match get_email_details env s.appStartTime message_id with
  | none => (none, s, [Effect.getMessage message_id])
  | some details =>
      let dres := downloadAll env message_id details.attachments
      let s2 : AppState :=
        { s with processedMessages := insertIfAbsent message_id s.processedMessages }
      ( some { messageId := details.messageId
             , subject := details.subject
             , fromAddr := details.fromAddr
             , attachments := details.attachments.length
             , downloadedAttachments := dres.1.length }
      , s2
      , Effect.getMessage message_id ::
          (dres.2 ++ [Effect.saveEmailJson message_id, Effect.markRead message_id, Effect.saveState]) )

/-- The webhook's per-message loop (main.py lines 391-401): every resolved id
is processed; a `None` result is excluded from the summary list and never
aborts the siblings. -/
def processAll (env : GmailEnv) (s : AppState) :
    List String → List EmailSummary × AppState × List Effect
  | [] => ([], s, [])
  | mid :: rest =>
      let r := process_email env s mid
      let rr := processAll env r.2.1 rest
      ((match r.1 with | some sum => sum :: rr.1 | none => rr.1), rr.2.1, r.2.2 ++ rr.2.2)

/-- The ways a webhook request fails before a notification is obtained. -/
inductive FailKind where
  | requestBodyNotJson
  | missingMessageData
  | payloadNotDecodable
deriving Repr, DecidableEq

/-- The four response shapes of `gmail_webhook`.  `serverError` is an
`HTTPException(500, ...)`; `authError` is the HTTP-200 body
`{"status":"error","message":"Gmail authentication failed"}` of line 376;
the others are the HTTP-200 success bodies of lines 356, 383 and 405. -/
inductive WebhookResponse where
  | serverError (kind : FailKind)
  | authError
  | alreadyProcessed (historyId : Option String)
  | noNewMessages (historyId : Option String)
  | success (historyId : Option String) (processedEmails : Nat) (emails : List EmailSummary)
deriving Repr, DecidableEq

/-- HTTP status of a response: only the re-raised `HTTPException(500, ...)` is
a non-200. -/
def WebhookResponse.httpStatus : WebhookResponse → Nat
  | .serverError _ => 500
  | _ => 200

/-- The decoded shape of an incoming request (main.py lines 340-351).
`badRequestJson`: `request.json()` raises; `missingData`: the body has no
`message`/`message.data`; `badData`: base64 decoding or `json.loads` of the
data raises; `notif`: a decoded notification, both fields permissive. -/
inductive Envelope where
  | badRequestJson
  | missingData
  | badData
  | notif (emailAddress : Option String) (historyId : Option String)
deriving Repr, DecidableEq

/-- Result of one webhook invocation: response, final state, effect trace. -/
structure WebhookOut where
  resp : WebhookResponse
  state : AppState
  effects : List Effect
deriving Repr, DecidableEq

/-- main.py lines 335-421, `gmail_webhook`.  Note on the malformed cases: the
`raise HTTPException(400, "Missing message.data")` of line 345 sits INSIDE the
handler's own `try`, and `fastapi.HTTPException` subclasses `Exception`, so
the blanket `except Exception` of line 415 catches it (`history_id` is not yet
in `locals()`, so nothing is rolled back) and re-raises
`HTTPException(500, "Internal server error: ...")` — every malformed envelope
therefore surfaces as a 500 server error.  A raising `request.json()` and a
raising base64/JSON decode of the data take the same path. -/
def gmail_webhook (env : GmailEnv) (s : AppState) (e : Envelope) : WebhookOut :=
  match e with
  | .badRequestJson => ⟨.serverError .requestBodyNotJson, s, []⟩
  | .missingData => ⟨.serverError .missingMessageData, s, []⟩
  | .badData => ⟨.serverError .payloadNotDecodable, s, []⟩
  | .notif _ history_id =>
      if history_id ∈ s.processedHistoryIds then
        ⟨.alreadyProcessed history_id, s, []⟩
      else
        let s1 : AppState :=
          { s with processedHistoryIds := insertIfAbsent history_id s.processedHistoryIds }
        if env.authOk then
          let gres := get_new_messages env s1.appStartTime s1.processedMessages
          match gres.1 with
          | [] => ⟨.noNewMessages history_id, s1, Effect.saveState :: gres.2⟩
          | _ :: _ =>
              let pres := processAll env s1 gres.1
              ⟨.success history_id pres.1.length pres.1,
               pres.2.1, Effect.saveState :: (gres.2 ++ pres.2.2)⟩
        else
          let s2 : AppState :=
            { s1 with processedHistoryIds := setDiscard history_id s1.processedHistoryIds }
          ⟨.authError, s2, [Effect.saveState, Effect.saveState]⟩

/-- main.py lines 423-437, the `/reset-start-time` endpoint: fresh epoch,
both sets cleared, state persisted. -/
def reset_start_time (now : Int) : AppState × List Effect :=
  (⟨now, [], []⟩, [Effect.saveState])

/-- The New-Message Resolver algorithm exactly as the specification's section
4.3 words it, written ONLY to be compared against the source's
`get_new_messages` (refinement check for claim C1); it is not part of the
source embedding.  Step 1: with a usable history id and a remembered last
observed id, take the incremental history diff (falling back when the remote
rejects the range, `historyList = none`); step 2: otherwise the bounded
unread scan; step 3: filter processed ids; step 4: remember the current
history id. -/
def resolveSpec (env : GmailEnv) (history_id : Option String)
    (lastObserved : Option String) (processed : List String) :
    List String × Option String :=
  let ids :=
    match history_id, lastObserved with
    | some _, some _ =>
        match env.historyList with
        | some added => added
        | none => env.listResult.getD []
    | _, _ => env.listResult.getD []
  (ids.filter (fun i => i ∉ processed), history_id)

/-- Does an effect fetch, download for, persist, or mark read the given
message id? (Used to state at-most-once side-effect claims.) -/
def Effect.touchesMsg (m : String) : Effect → Bool
  | .getMessage i => i = m
  | .markRead i => i = m
  | .saveEmailJson i => i = m
  | .downloadAttachment i _ => i = m
  | _ => false

/-- Fixture: fresh state, epoch start 0, both sets empty. -/
def st0 : AppState := ⟨0, [], []⟩

/-- Fixture: state in which message `"m1"` is already processed. -/
def stM1 : AppState := ⟨0, ["m1"], []⟩

/-- Fixture environment: authentication succeeds, the list query returns no
messages, every other remote call raises. -/
def envNoMsgs : GmailEnv :=
  { authOk := true, listResult := some [], historyList := none
  , getMessage := fun _ => none, getAttachment := fun _ _ => none
  , dec := id, pd := fun _ => none, now := 0 }

/-- Fixture environment: the list query itself raises. -/
def envListFails : GmailEnv := { envNoMsgs with listResult := none }

/-- Fixture environment: credential acquisition fails. -/
def envAuthFails : GmailEnv := { envListFails with authOk := false }

/-- Fixture environment: the unread scan returns `["m1", "m2"]`. -/
def envListM1M2 : GmailEnv := { envNoMsgs with listResult := some ["m1", "m2"] }

/-- Fixture environment for the resolver-comparison counterexample: the scan
would return `["m1"]` while an incremental history diff would return
`["h1"]`. -/
def envC1 : GmailEnv := { envNoMsgs with listResult := some ["m1"], historyList := some ["h1"] }

/-- Fixture environment differing from `envC1` everywhere except in the scan
response (used to show the resolver depends on the scan response alone). -/
def envC1b : GmailEnv :=
  { envC1 with
    historyList := none
    authOk := false
    getMessage := fun _ => some ⟨none, "snippet"⟩
    now := 99 }

/-- Fixture: a `text/plain` leaf part with the given body data. -/
def plainLeaf (d : String) : Payload := .mk "text/plain" none [] ⟨some d, none, none⟩ none

/-- Fixture: a `text/html` leaf part with the given body data. -/
def htmlLeaf (d : String) : Payload := .mk "text/html" none [] ⟨some d, none, none⟩ none

/-- Fixture tree for body extraction: a `multipart/mixed` whose first child is
a `multipart/alternative` containing only an HTML part, and whose second
child is a plain-text part. -/
def cexNestedBody : Payload :=
  .mk "multipart/mixed" none [] ⟨none, none, none⟩
    (some [ .mk "multipart/alternative" none [] ⟨none, none, none⟩ (some [htmlLeaf "H"])
          , plainLeaf "P" ])

/-- First child of the given mime type that has body data, in list order
(specification-side helper used to state the flat-sibling priority). -/
def firstData (mt : String) : List Payload → Option String
  | [] => none
  | c :: rest =>
      match (if c.mimeType = mt then c.body.data else none) with
      | some d => some d
      | none => firstData mt rest

/-!
Specification-side collector: the body data of every `text/plain` part
anywhere in a part forest (all depths, no shadowing) — used to state that a
plain-text part exists in a tree.
-/
mutual

def plainDataList : List Payload → List String
  | [] => []
  | c :: rest => plainDataEntry c ++ plainDataList rest

def plainDataEntry : Payload → List String
  | .mk mt _ _ b ps =>
      (if mt = "text/plain" then (match b.data with | some d => [d] | none => []) else []) ++
      (match ps with | some cs => plainDataList cs | none => [])

end

/-- The attachment-metadata record the source builds from a part
(main.py lines 218-223). -/
def infoOf (q : Payload) : AttachmentInfo :=
  ⟨q.filename.getD "", q.mimeType, q.body.size.getD 0, q.body.attachmentId⟩

/-!
Specification-side description of which parts the source's attachment
traversal visits: every element of the forest, and, below an element, only
the subtrees of parts that do NOT themselves carry a truthy filename (the
`elif` of main.py line 225 never descends into a collected part).
-/
mutual

def visitedParts : List Payload → List Payload
  | [] => []
  | c :: rest => visitedEntry c ++ visitedParts rest

def visitedEntry : Payload → List Payload
  | .mk mt fn hs b none => [Payload.mk mt fn hs b none]
  | .mk mt fn hs b (some cs) =>
      Payload.mk mt fn hs b (some cs) ::
        (if fnNonEmpty fn then [] else visitedParts cs)

end

/-!
Specification-side collector: the filenames of ALL truthy-filename parts
anywhere in a part forest (all depths, no shadowing) — used to state that a
filename-carrying part exists in a tree.
-/
mutual

def allAttachNames : List Payload → List String
  | [] => []
  | c :: rest => allAttachEntry c ++ allAttachNames rest

def allAttachEntry : Payload → List String
  | .mk _ fn _ _ ps =>
      (if fnNonEmpty fn then [fn.getD ""] else []) ++
      (match ps with | some cs => allAttachNames cs | none => [])

end

/-- Fixture: a part carrying filename `a.pdf` that itself nests a part
carrying filename `b.pdf`. -/
def namedPdf : Payload :=
  .mk "application/pdf" (some "a.pdf") [] ⟨none, some 10, some "idA"⟩
    (some [ .mk "application/pdf" (some "b.pdf") [] ⟨none, some 20, some "idB"⟩ none ])

/-- Fixture tree for attachment extraction: root whose single child is
`namedPdf`. -/
def cexAttachTree : Payload :=
  .mk "multipart/mixed" none [] ⟨none, none, none⟩ (some [namedPdf])

/-- Fixture: a message whose `Date` header does not parse. -/
def msgBadDate : Message :=
  ⟨some (.mk "text/plain" none [("Date", "not-a-date"), ("Subject", "Hi")]
      ⟨some "Qm9keQ", none, none⟩ none), "snip"⟩

/-- Fixture environment in which `"m1"` resolves to `msgBadDate` (and the
date parser fails on everything, as it does on `"not-a-date"`). -/
def envBadDate : GmailEnv :=
  { envNoMsgs with getMessage := fun i => if i = "m1" then some msgBadDate else none }

theorem Payload.mimeType_mk (mt : String) (fn : Option String)
    (hs : List (String × String)) (b : PartBody) (ps : Option (List Payload)) :
    (Payload.mk mt fn hs b ps).mimeType = mt := rfl

theorem Payload.filename_mk (mt : String) (fn : Option String)
    (hs : List (String × String)) (b : PartBody) (ps : Option (List Payload)) :
    (Payload.mk mt fn hs b ps).filename = fn := rfl

theorem Payload.body_mk (mt : String) (fn : Option String)
    (hs : List (String × String)) (b : PartBody) (ps : Option (List Payload)) :
    (Payload.mk mt fn hs b ps).body = b := rfl

theorem Payload.parts_mk (mt : String) (fn : Option String)
    (hs : List (String × String)) (b : PartBody) (ps : Option (List Payload)) :
    (Payload.mk mt fn hs b ps).parts = ps := rfl

theorem mem_insertIfAbsent {α : Type} [DecidableEq α] (x : α) (l : List α) :
    x ∈ insertIfAbsent x l := by
  unfold insertIfAbsent; split <;> simp_all

theorem subset_insertIfAbsent {α : Type} [DecidableEq α] (x : α) (l : List α) :
    l ⊆ insertIfAbsent x l := by
  unfold insertIfAbsent; split
  · exact fun a ha => ha
  · exact fun a ha => List.mem_cons_of_mem _ ha

theorem insertIfAbsent_of_not_mem {α : Type} [DecidableEq α] {x : α} {l : List α}
    (h : x ∉ l) : insertIfAbsent x l = x :: l := by
  unfold insertIfAbsent; simp [h]

theorem setDiscard_of_not_mem {α : Type} [DecidableEq α] {x : α} {l : List α}
    (h : x ∉ l) : setDiscard x l = l := by
  unfold setDiscard
  rw [List.filter_eq_self]
  intro a ha
  simp only [ne_eq, decide_eq_true_eq]
  rintro rfl
  exact h ha

theorem process_email_state (env : GmailEnv) (s : AppState) (mid : String) :
    ((process_email env s mid).2.1).processedHistoryIds = s.processedHistoryIds
  ∧ ((process_email env s mid).2.1).appStartTime = s.appStartTime
  ∧ s.processedMessages ⊆ ((process_email env s mid).2.1).processedMessages := by
  unfold process_email
  cases get_email_details env s.appStartTime mid <;>
    simp [subset_insertIfAbsent]

theorem processAll_state (env : GmailEnv) (l : List String) :
    ∀ (s : AppState),
      ((processAll env s l).2.1).processedHistoryIds = s.processedHistoryIds
    ∧ ((processAll env s l).2.1).appStartTime = s.appStartTime
    ∧ s.processedMessages ⊆ ((processAll env s l).2.1).processedMessages := by
  induction l with
  | nil => intro s; simp [processAll]
  | cons mid rest ih =>
      intro s
      have h1 := process_email_state env s mid
      have h2 := ih ((process_email env s mid).2.1)
      unfold processAll
      exact ⟨by rw [h2.1, h1.1], by rw [h2.2.1, h1.2.1],
             h1.2.2.trans h2.2.2⟩

theorem downloadAll_effects (env : GmailEnv) (mid : String)
    (atts : List AttachmentInfo) :
    ∀ ef ∈ (downloadAll env mid atts).2, ∃ aid, ef = Effect.downloadAttachment mid aid := by
  induction atts with
  | nil => simp [downloadAll]
  | cons a rest ih =>
      intro ef hef
      unfold downloadAll at hef
      rcases ha : a.attachmentId with _ | aid <;> simp only [ha] at hef
      · exact ih ef hef
      · by_cases haid : aid = ""
        · simp only [haid, ne_eq, not_true_eq_false, if_false] at hef
          exact ih ef hef
        · simp only [ne_eq, haid, not_false_eq_true, if_true] at hef
          rcases hg : env.getAttachment mid aid <;> simp only [hg] at hef <;>
            · rcases List.mem_cons.mp hef with rfl | hef'
              · exact ⟨aid, rfl⟩
              · exact ih ef hef'

theorem process_email_effects (env : GmailEnv) (s : AppState) (mid m : String)
    (hne : m ≠ mid) :
    ∀ ef ∈ (process_email env s mid).2.2, ef.touchesMsg m = false := by
  have hmn : mid ≠ m := Ne.symm hne
  unfold process_email
  cases get_email_details env s.appStartTime mid with
  | none => simp [Effect.touchesMsg, hmn]
  | some details =>
      intro ef hef
      simp at hef
      rcases hef with rfl | hef | rfl | rfl | rfl
      · simp [Effect.touchesMsg, hmn]
      · obtain ⟨aid, rfl⟩ := downloadAll_effects env mid details.attachments ef hef
        simp [Effect.touchesMsg, hmn]
      · simp [Effect.touchesMsg, hmn]
      · simp [Effect.touchesMsg, hmn]
      · simp [Effect.touchesMsg]

theorem processAll_effects (env : GmailEnv) (l : List String) :
    ∀ (s : AppState) (m : String), m ∉ l →
      ∀ ef ∈ (processAll env s l).2.2, ef.touchesMsg m = false := by
  induction l with
  | nil => simp [processAll]
  | cons mid rest ih =>
      intro s m hm ef hef
      have hne : m ≠ mid := fun h => hm (h ▸ List.mem_cons_self _ _)
      have hrest : m ∉ rest := fun h => hm (List.mem_cons_of_mem _ h)
      unfold processAll at hef
      simp only [List.mem_append] at hef
      rcases hef with hef | hef
      · exact process_email_effects env s mid m hne ef hef
      · exact ih _ m hrest ef hef

theorem setDiscard_insertIfAbsent {α : Type} [DecidableEq α] {x : α} {l : List α}
    (hx : x ∉ l) : setDiscard x (insertIfAbsent x l) = l := by
  rw [insertIfAbsent_of_not_mem hx]
  unfold setDiscard
  rw [List.filter_cons, if_neg (by simp)]
  have h2 := setDiscard_of_not_mem hx
  unfold setDiscard at h2
  exact h2

theorem get_new_messages_effects (env : GmailEnv) (t : Int) (p : List String) :
    (get_new_messages env t p).2 = [Effect.listMessages t] := by
  unfold get_new_messages; cases env.listResult <;> rfl

theorem get_new_messages_not_processed (env : GmailEnv) (t : Int) (p : List String) :
    ∀ i ∈ (get_new_messages env t p).1, i ∉ p := by
  unfold get_new_messages
  cases env.listResult with
  | none => simp
  | some ids =>
      intro i hi
      rw [List.mem_filter] at hi
      simpa using hi.2

theorem gmail_webhook_marks_seen (env : GmailEnv) (s : AppState)
    (a h : Option String) (hauth : env.authOk = true) :
    h ∈ (gmail_webhook env s (.notif a h)).state.processedHistoryIds := by
  unfold gmail_webhook
  by_cases hm : h ∈ s.processedHistoryIds
  · simpa [hm] using hm
  · simp only [if_neg hm, hauth, if_true]
    split
    · exact mem_insertIfAbsent h s.processedHistoryIds
    · rw [(processAll_state env _ _).1]
      exact mem_insertIfAbsent h s.processedHistoryIds

theorem gmail_webhook_state_mono (env : GmailEnv) (s : AppState) (e : Envelope) :
    s.processedMessages ⊆ (gmail_webhook env s e).state.processedMessages
  ∧ s.processedHistoryIds ⊆ (gmail_webhook env s e).state.processedHistoryIds := by
  cases e with
  | badRequestJson => exact ⟨List.Subset.refl _, List.Subset.refl _⟩
  | missingData => exact ⟨List.Subset.refl _, List.Subset.refl _⟩
  | badData => exact ⟨List.Subset.refl _, List.Subset.refl _⟩
  | notif a h =>
      unfold gmail_webhook
      by_cases hm : h ∈ s.processedHistoryIds
      · simp only [if_pos hm]
        exact ⟨List.Subset.refl _, List.Subset.refl _⟩
      · simp only [if_neg hm]
        by_cases hauth : env.authOk = true
        · simp only [hauth, if_true]
          split
          · exact ⟨List.Subset.refl _, subset_insertIfAbsent _ _⟩
          · dsimp only
            constructor
            · exact (processAll_state env _
                ⟨s.appStartTime, s.processedMessages,
                 insertIfAbsent h s.processedHistoryIds⟩).2.2
            · rw [(processAll_state env _ _).1]
              exact subset_insertIfAbsent _ _
        · rw [Bool.not_eq_true] at hauth
          simp only [hauth, Bool.false_eq_true, if_false]
          refine ⟨List.Subset.refl _, ?_⟩
          rw [setDiscard_insertIfAbsent hm]
          exact List.Subset.refl _

theorem gmail_webhook_effects_scoped (env : GmailEnv) (s : AppState) (e : Envelope)
    (m : String) (hm : m ∈ s.processedMessages) :
    ∀ ef ∈ (gmail_webhook env s e).effects, ef.touchesMsg m = false := by
  cases e with
  | badRequestJson => simp [gmail_webhook]
  | missingData => simp [gmail_webhook]
  | badData => simp [gmail_webhook]
  | notif a h =>
      unfold gmail_webhook
      by_cases hmem : h ∈ s.processedHistoryIds
      · simp [hmem]
      · simp only [if_neg hmem]
        by_cases hauth : env.authOk = true
        · simp only [hauth, if_true]
          split
          · intro ef hef
            rw [get_new_messages_effects] at hef
            simp at hef
            rcases hef with rfl | rfl <;> simp [Effect.touchesMsg]
          · intro ef hef
            rw [get_new_messages_effects] at hef
            simp at hef
            rcases hef with rfl | rfl | hef
            · simp [Effect.touchesMsg]
            · simp [Effect.touchesMsg]
            · refine processAll_effects env _ _ m ?_ ef hef
              intro hcontra
              exact get_new_messages_not_processed env _ _ m hcontra hm
        · rw [Bool.not_eq_true] at hauth
          simp only [hauth, Bool.false_eq_true, if_false]
          intro ef hef
          simp at hef
          rcases hef with rfl | rfl <;> simp [Effect.touchesMsg]

theorem get_new_messages_list_failure {env : GmailEnv} (t : Int) (p : List String)
    (hlist : env.listResult = none) :
    get_new_messages env t p = ([], [Effect.listMessages t]) := by
  unfold get_new_messages; rw [hlist]

theorem gmail_webhook_lists_when_fresh (env : GmailEnv) (s : AppState)
    (a h : Option String) (hm : h ∉ s.processedHistoryIds)
    (hauth : env.authOk = true) :
    Effect.listMessages s.appStartTime ∈ (gmail_webhook env s (.notif a h)).effects := by
  simp only [gmail_webhook, if_neg hm, hauth, if_true]
  split <;> simp [get_new_messages_effects]

/-- C5: delivering a notification whose history id is already in
`processedHistoryIds` returns the "Already processed" response with the state
untouched and an empty effect trace — no pipeline invocation and no remote
call; and replaying an envelope whose first delivery got past authentication
yields exactly that skip on the second call, so no duplicate MessageRecord
artifact is persisted (the second call performs no effect at all). -/
theorem dedup_gate_skip_and_idempotence (env env2 : GmailEnv) (s : AppState)
    (a a2 h : Option String) :
    (h ∈ s.processedHistoryIds →
        gmail_webhook env s (.notif a h) = ⟨.alreadyProcessed h, s, []⟩)
  ∧ (h ∉ s.processedHistoryIds → env.authOk = true →
        gmail_webhook env2 ((gmail_webhook env s (.notif a h)).state) (.notif a2 h)
          = ⟨.alreadyProcessed h, (gmail_webhook env s (.notif a h)).state, []⟩) := by
  constructor
  · intro hm
    unfold gmail_webhook
    simp [hm]
  · intro hm hauth
    have hseen := gmail_webhook_marks_seen env s a h hauth
    generalize (gmail_webhook env s (.notif a h)).state = st at hseen ⊢
    unfold gmail_webhook
    simp [hseen]

theorem dedup_gate_skip_and_idempotence_witness :
    gmail_webhook envNoMsgs
        ((gmail_webhook envNoMsgs st0 (.notif (some "a@x") (some "1001"))).state)
        (.notif (some "a@x") (some "1001"))
      = ⟨.alreadyProcessed (some "1001"),
         (gmail_webhook envNoMsgs st0 (.notif (some "a@x") (some "1001"))).state, []⟩ :=
  (dedup_gate_skip_and_idempotence envNoMsgs envNoMsgs st0
      (some "a@x") (some "a@x") (some "1001")).2 (by decide) rfl

/-- C9 (documents a code bug): every malformed envelope — request body that
is not JSON, body missing `message`/`message.data`, or a `data` field whose
base64/JSON decoding fails — is answered by the re-raised
`HTTPException(500, "Internal server error: ...")`, i.e. HTTP status 500, a
SERVER error (even though line 345 tries to answer the missing-field case
with a 400 client error, its own blanket `except Exception` converts it);
the state is unchanged and nothing is retried internally (empty trace). -/
theorem malformed_envelope_server_error (env : GmailEnv) (s : AppState) :
    gmail_webhook env s .missingData = ⟨.serverError .missingMessageData, s, []⟩
  ∧ gmail_webhook env s .badRequestJson = ⟨.serverError .requestBodyNotJson, s, []⟩
  ∧ gmail_webhook env s .badData = ⟨.serverError .payloadNotDecodable, s, []⟩
  ∧ (WebhookResponse.serverError .missingMessageData).httpStatus = 500
  ∧ (WebhookResponse.serverError .payloadNotDecodable).httpStatus = 500 :=
  ⟨rfl, rfl, rfl, rfl, rfl⟩

/-- C6: once a message id is a member of `processedMessages`, the resolver
never returns it again, a webhook invocation performs no fetch / download /
persist / mark-read effect for it, and both processed sets only grow across
any webhook invocation (only the explicit `/reset-start-time` endpoint,
`reset_start_time`, clears them). -/
theorem processed_ids_never_reprocessed_and_monotone
    (env : GmailEnv) (s : AppState) (e : Envelope) (m : String)
    (hm : m ∈ s.processedMessages) :
    m ∉ (get_new_messages env s.appStartTime s.processedMessages).1
  ∧ (∀ ef ∈ (gmail_webhook env s e).effects, ef.touchesMsg m = false)
  ∧ s.processedMessages ⊆ (gmail_webhook env s e).state.processedMessages
  ∧ s.processedHistoryIds ⊆ (gmail_webhook env s e).state.processedHistoryIds :=
  ⟨fun hc => get_new_messages_not_processed env _ _ m hc hm,
   gmail_webhook_effects_scoped env s e m hm,
   (gmail_webhook_state_mono env s e).1,
   (gmail_webhook_state_mono env s e).2⟩

theorem processed_ids_never_reprocessed_and_monotone_witness :
    "m1" ∈ stM1.processedMessages
  ∧ "m1" ∉ (get_new_messages envListM1M2 stM1.appStartTime stM1.processedMessages).1
  ∧ (∀ ef ∈ (gmail_webhook envListM1M2 stM1 (.notif (some "a@x") (some "1001"))).effects,
        ef.touchesMsg "m1" = false) :=
  ⟨by decide,
   (processed_ids_never_reprocessed_and_monotone envListM1M2 stM1
      (.notif (some "a@x") (some "1001")) "m1" (by decide)).1,
   (processed_ids_never_reprocessed_and_monotone envListM1M2 stM1
      (.notif (some "a@x") (some "1001")) "m1" (by decide)).2.1⟩

/-- C2 counterexample: the remote list query fails entirely after history id
`"1001"` was marked seen, yet the gate does NOT roll back: the response is
the HTTP-200 success "No new messages" and `"1001"` stays in
`processedHistoryIds` — no fatal error reaches the transport layer. -/
theorem list_failure_no_rollback_cex :
    (gmail_webhook envListFails st0 (.notif (some "a@x") (some "1001"))).resp
        = .noNewMessages (some "1001")
  ∧ some "1001" ∈ (gmail_webhook envListFails st0
        (.notif (some "a@x") (some "1001"))).state.processedHistoryIds
  ∧ ((gmail_webhook envListFails st0
        (.notif (some "a@x") (some "1001"))).resp).httpStatus = 200 := by
  refine ⟨by decide, by decide, by decide⟩

/-- C2 amended: a total remote list/history query failure is absorbed inside
`get_new_messages` (empty result), so the webhook answers the success
"No new messages", the history id REMAINS marked seen, and no error is
surfaced to the transport layer; only a credential-acquisition failure takes
the rollback path (seen mark removed, error response). -/
theorem list_failure_absorbed_auth_failure_rolls_back
    (env envA : GmailEnv) (s : AppState) (a h : Option String)
    (hm : h ∉ s.processedHistoryIds) (hauth : env.authOk = true)
    (hlist : env.listResult = none) (hauthA : envA.authOk = false) :
    gmail_webhook env s (.notif a h)
      = ⟨.noNewMessages h,
         ⟨s.appStartTime, s.processedMessages, insertIfAbsent h s.processedHistoryIds⟩,
         [Effect.saveState, Effect.listMessages s.appStartTime]⟩
  ∧ gmail_webhook envA s (.notif a h)
      = ⟨.authError, s, [Effect.saveState, Effect.saveState]⟩ := by
  constructor
  · simp only [gmail_webhook, if_neg hm, hauth, if_true,
               get_new_messages_list_failure _ _ hlist]
  · simp only [gmail_webhook, if_neg hm, hauthA, Bool.false_eq_true, if_false,
               setDiscard_insertIfAbsent hm]

theorem list_failure_absorbed_auth_failure_rolls_back_witness :
    gmail_webhook envListFails st0 (.notif (some "a@x") (some "1001"))
      = ⟨.noNewMessages (some "1001"),
         ⟨st0.appStartTime, st0.processedMessages,
          insertIfAbsent (some "1001") st0.processedHistoryIds⟩,
         [Effect.saveState, Effect.listMessages st0.appStartTime]⟩
  ∧ gmail_webhook envAuthFails st0 (.notif (some "a@x") (some "1001"))
      = ⟨.authError, st0, [Effect.saveState, Effect.saveState]⟩ :=
  list_failure_absorbed_auth_failure_rolls_back envListFails envAuthFails st0
    (some "a@x") (some "1001") (by decide) rfl rfl rfl

/-- C8 counterexample: two successive notifications both lacking
`history_id`, against a fresh state: the first proceeds (fallback scan, "No
new messages"), but the Python value `None` is itself added to
`PROCESSED_HISTORY_IDS`, so the second is answered "Already processed"
with an empty effect trace — it does NOT proceed to any resolution. -/
theorem missing_history_id_second_skipped_cex :
    (gmail_webhook envNoMsgs st0 (.notif (some "a@x") none)).resp
        = .noNewMessages none
  ∧ gmail_webhook envNoMsgs (gmail_webhook envNoMsgs st0 (.notif (some "a@x") none)).state
        (.notif (some "a@x") none)
      = ⟨.alreadyProcessed none,
         (gmail_webhook envNoMsgs st0 (.notif (some "a@x") none)).state, []⟩ := by
  constructor
  · decide
  · decide

/-- C8 amended: a notification lacking `history_id` is not itself an error —
when Python `None` is not yet in the processed set the webhook proceeds to
authentication and resolution exactly as with a history id (issuing the
fallback scan); but `None` is then recorded in `processedHistoryIds`, so
every LATER notification lacking `history_id` is skipped as
"Already processed" instead of proceeding. -/
theorem missing_history_id_first_proceeds_then_skipped
    (env env2 : GmailEnv) (s : AppState) (a a2 : Option String)
    (hauth : env.authOk = true)
    (hnone : (none : Option String) ∉ s.processedHistoryIds) :
    Effect.listMessages s.appStartTime ∈ (gmail_webhook env s (.notif a none)).effects
  ∧ (none : Option String) ∈ (gmail_webhook env s (.notif a none)).state.processedHistoryIds
  ∧ gmail_webhook env2 ((gmail_webhook env s (.notif a none)).state) (.notif a2 none)
      = ⟨.alreadyProcessed none, (gmail_webhook env s (.notif a none)).state, []⟩ := by
  refine ⟨gmail_webhook_lists_when_fresh env s a none hnone hauth,
          gmail_webhook_marks_seen env s a none hauth, ?_⟩
  have hseen := gmail_webhook_marks_seen env s a none hauth
  generalize (gmail_webhook env s (.notif a none)).state = st at hseen ⊢
  simp only [gmail_webhook, if_pos hseen]

theorem missing_history_id_first_proceeds_then_skipped_witness :
    Effect.listMessages st0.appStartTime
        ∈ (gmail_webhook envNoMsgs st0 (.notif (some "a@x") none)).effects
  ∧ (none : Option String)
        ∈ (gmail_webhook envNoMsgs st0 (.notif (some "a@x") none)).state.processedHistoryIds
  ∧ gmail_webhook envNoMsgs ((gmail_webhook envNoMsgs st0 (.notif (some "a@x") none)).state)
        (.notif (some "b@y") none)
      = ⟨.alreadyProcessed none,
         (gmail_webhook envNoMsgs st0 (.notif (some "a@x") none)).state, []⟩ :=
  missing_history_id_first_proceeds_then_skipped envNoMsgs envNoMsgs st0
    (some "a@x") (some "b@y") rfl (by decide)

/-- C1 counterexample: in an environment where an incremental history diff is
available (it would yield `["h1"]`) and the resolver would hold a remembered
prior history id, the specification's resolver (`resolveSpec`) takes the diff
path, returns `["h1"]` and remembers the current id `"5"`; the source's
`get_new_messages` instead still issues only the bounded unread scan,
returns the scan's `["m1"] ≠ ["h1"]`, records no history-diff call, and the
program keeps no last-observed marker for it to update. -/
theorem resolver_ignores_history_cex :
    (get_new_messages envC1 0 []).1 = ["m1"]
  ∧ (get_new_messages envC1 0 []).2 = [Effect.listMessages 0]
  ∧ (resolveSpec envC1 (some "5") (some "4") []).1 = ["h1"]
  ∧ (resolveSpec envC1 (some "5") (some "4") []).2 = some "5"
  ∧ (["m1"] : List String) ≠ ["h1"] := by
  refine ⟨by decide, by decide, by decide, by decide, by decide⟩

/-- C1 amended: every resolution takes only the bounded unread-scan path:
the effect trace of `get_new_messages` is exactly one list call and never
contains a history-diff call; every returned id comes from the scan response
and is not already processed; and the returned ids are a function of the
scan response alone (in particular independent of the notification's history
id, which `get_new_messages` does not even receive, and of any remembered
history id, which the program does not keep). -/
theorem resolver_scan_only (env env2 : GmailEnv) (t : Int) (p : List String)
    (hsame : env2.listResult = env.listResult) :
    (get_new_messages env t p).2 = [Effect.listMessages t]
  ∧ (∀ fromId, Effect.historyDiff fromId ∉ (get_new_messages env t p).2)
  ∧ (∀ i ∈ (get_new_messages env t p).1, i ∈ env.listResult.getD [] ∧ i ∉ p)
  ∧ (get_new_messages env2 t p).1 = (get_new_messages env t p).1 := by
  refine ⟨get_new_messages_effects env t p, ?_, ?_, ?_⟩
  · intro fromId
    rw [get_new_messages_effects env t p]
    simp
  · unfold get_new_messages
    cases env.listResult with
    | none => simp
    | some ids =>
        intro i hi
        rw [List.mem_filter] at hi
        refine ⟨by simpa using hi.1, by simpa using hi.2⟩
  · unfold get_new_messages
    rw [hsame]

theorem resolver_scan_only_witness :
    (get_new_messages envC1 0 []).2 = [Effect.listMessages 0]
  ∧ (get_new_messages envC1b 0 []).1 = (get_new_messages envC1 0 []).1 :=
  ⟨(resolver_scan_only envC1 envC1b 0 [] rfl).1,
   (resolver_scan_only envC1 envC1b 0 [] rfl).2.2.2⟩

theorem strStartsWith_multipart_ne {mt : String}
    (h : strStartsWith mt "multipart/" = true) :
    mt ≠ "text/plain" ∧ mt ≠ "text/html" := by
  constructor <;> rintro rfl <;> revert h <;> decide

theorem bodyHtmlLoop_eq_firstData (dec : String → String) (cs : List Payload) :
    bodyHtmlLoop dec cs =
      (match firstData "text/html" cs with
       | some d => dec d
       | none => "") := by
  induction cs with
  | nil => rfl
  | cons c rest ih =>
      rcases c with ⟨mt, fn, hs, b, ps⟩
      by_cases hmt : mt = "text/html"
      · subst hmt
        cases hbd : b.data with
        | some d => simp [bodyHtmlLoop, firstData, Payload.mimeType, Payload.body, hbd]
        | none => simp [bodyHtmlLoop, firstData, Payload.mimeType, Payload.body, hbd, ih]
      · simp [bodyHtmlLoop, firstData, Payload.mimeType, Payload.body, hmt, ih]

theorem bodyFirstLoop_flat (dec : String → String) :
    ∀ (cs : List Payload), (∀ c ∈ cs, c.parts = none) →
      bodyFirstLoop dec cs = (firstData "text/plain" cs).map dec := by
  intro cs
  induction cs with
  | nil => intro _; rfl
  | cons c rest ih =>
      intro hleaf
      have hc : c.parts = none := hleaf c (List.mem_cons_self _ _)
      have hr := ih (fun x hx => hleaf x (List.mem_cons_of_mem _ hx))
      rcases c with ⟨mt, fn, hs, b, ps⟩
      simp only [Payload.parts] at hc
      subst hc
      by_cases hmt : mt = "text/plain"
      · subst hmt
        cases hbd : b.data with
        | some d => simp [bodyFirstLoop, firstData, Payload.mimeType, Payload.body, hbd]
        | none =>
            have hsw : strStartsWith "text/plain" "multipart/" = false := by decide
            simp [bodyFirstLoop, firstData, Payload.mimeType, Payload.body, hbd, hsw, hr]
      · by_cases hsw : strStartsWith mt "multipart/" = true
        · have hne := strStartsWith_multipart_ne hsw
          cases hbd : b.data with
          | none =>
              simp [bodyFirstLoop, firstData, Payload.mimeType, Payload.body,
                    hbd, hmt, hsw, extractBodyRec, hr]
          | some d =>
              simp [bodyFirstLoop, firstData, Payload.mimeType, Payload.body,
                    hbd, hmt, hsw, extractBodyRec, hne.1, hne.2, hr]
        · rw [Bool.not_eq_true] at hsw
          simp [bodyFirstLoop, firstData, Payload.mimeType, Payload.body, hmt, hsw, hr]

/-- C3 counterexample: the tree `multipart/mixed[multipart/alternative[
text/html "H"], text/plain "P"]` contains a plain-text part with data
(decoded content `"P"`), yet body extraction returns the HTML content `"H"`:
the first loop recurses eagerly into the earlier multipart sibling and
returns its inner HTML fallback before the later plain-text sibling is ever
examined — so a plain-text part does NOT always win over HTML. -/
theorem extract_body_nested_html_beats_plain_cex :
    plainDataList [cexNestedBody] = ["P"]
  ∧ extract_body id cexNestedBody = "H"
  ∧ extract_body id cexNestedBody ∉ (plainDataList [cexNestedBody]).map id := by
  refine ⟨by decide, by decide, by decide⟩

/-- C3 amended: plain-text priority over HTML holds among direct LEAF
siblings: for a payload all of whose children are leaves (no `parts` key),
the extracted body is the first `text/plain` child with data, decoded, and
only when there is none the first `text/html` child with data; in particular
with one HTML and one plain-text leaf part in either order the plain-text
content is extracted.  (The priority is not global across nesting: an HTML
part inside an earlier `multipart/*` sibling can win over a later plain-text
part, as the counterexample shows.) -/
theorem extract_body_flat_plain_priority (dec : String → String)
    (mt : String) (fn : Option String) (hs : List (String × String))
    (b : PartBody) (cs : List Payload)
    (hleaf : ∀ c ∈ cs, c.parts = none) :
    extract_body dec (.mk mt fn hs b (some cs)) =
      (match firstData "text/plain" cs with
       | some d => dec d
       | none =>
           match firstData "text/html" cs with
           | some d => dec d
           | none => "") := by
  show extractBodyRec dec (.mk mt fn hs b (some cs)) = _
  rw [extractBodyRec, bodyFirstLoop_flat dec cs hleaf, bodyHtmlLoop_eq_firstData dec cs]
  cases firstData "text/plain" cs <;> rfl

theorem extract_body_flat_plain_priority_witness :
    extract_body id (.mk "multipart/alternative" none [] ⟨none, none, none⟩
        (some [htmlLeaf "H", plainLeaf "P"])) = "P"
  ∧ extract_body id (.mk "multipart/alternative" none [] ⟨none, none, none⟩
        (some [plainLeaf "P", htmlLeaf "H"])) = "P" := by
  constructor
  · rw [extract_body_flat_plain_priority id "multipart/alternative" none []
        ⟨none, none, none⟩ [htmlLeaf "H", plainLeaf "P"]
        (by simp [htmlLeaf, plainLeaf, Payload.parts])]
    decide
  · rw [extract_body_flat_plain_priority id "multipart/alternative" none []
        ⟨none, none, none⟩ [plainLeaf "P", htmlLeaf "H"]
        (by simp [htmlLeaf, plainLeaf, Payload.parts])]
    decide

theorem is_after_payload_some {pd : String → Option Int} {t0 : Int} {msg : Message}
    (h : is_message_after_start_time pd t0 msg = true) : msg.payload.isSome = true := by
  unfold is_message_after_start_time at h
  by_cases hds : dateStr msg = ""
  · simp [hds] at h
  · cases hmp : msg.payload with
    | some pl => simp
    | none =>
        exfalso
        apply hds
        unfold dateStr msgHeaders
        rw [hmp]
        rfl

theorem is_after_false_of_pd_none {pd : String → Option Int} {t0 : Int} {msg : Message}
    (h : pd (dateStr msg) = none) : is_message_after_start_time pd t0 msg = false := by
  unfold is_message_after_start_time
  by_cases hds : dateStr msg = "" <;> simp [hds, h]

/-- C4 counterexample: message `"m1"` carries date header `"not-a-date"`,
whose parse fails; the claim says an unparseable timestamp makes the message
admissible and fetch proceeds, but the `except` of
`is_message_after_start_time` returns `False`, so `get_email_details`
returns absent. -/
theorem unparseable_date_filtered_cex :
    dateStr msgBadDate = "not-a-date"
  ∧ envBadDate.pd (dateStr msgBadDate) = none
  ∧ is_message_after_start_time envBadDate.pd 0 msgBadDate = false
  ∧ get_email_details envBadDate 0 "m1" = none := by
  refine ⟨by decide, rfl, by decide, by decide⟩

/-- C4 amended: fetch returns absent exactly when the remote get fails or
the start-time re-check fails, and the re-check passes exactly when the date
header is present and non-empty, parses, and yields a time at or after
epoch start — so a message whose timestamp is missing, unparseable, or
strictly before epoch start is SKIPPED (absent, not an error); an
unparseable timestamp is NOT treated as admissible. -/
theorem get_email_details_absent_characterization (env : GmailEnv)
    (t0 : Int) (mid : String) :
    (get_email_details env t0 mid = none ↔
       (env.getMessage mid = none ∨
        ∃ msg, env.getMessage mid = some msg
             ∧ is_message_after_start_time env.pd t0 msg = false))
  ∧ (∀ msg, is_message_after_start_time env.pd t0 msg = true ↔
       (dateStr msg ≠ "" ∧ ∃ t, env.pd (dateStr msg) = some t ∧ t0 ≤ t)) := by
  constructor
  · unfold get_email_details
    cases hg : env.getMessage mid with
    | none => simp
    | some msg =>
        by_cases hcheck : is_message_after_start_time env.pd t0 msg = true
        · have hp := is_after_payload_some hcheck
          cases hmp : msg.payload with
          | none => rw [hmp] at hp; simp at hp
          | some pl => simp [hcheck, hmp]
        · rw [Bool.not_eq_true] at hcheck
          simp [hcheck]
  · intro msg
    unfold is_message_after_start_time
    by_cases hds : dateStr msg = ""
    · simp [hds]
    · cases hpd : env.pd (dateStr msg) with
      | none => simp [hds, hpd]
      | some t => simp [hds, hpd]

theorem get_email_details_absent_characterization_witness :
    get_email_details envBadDate 0 "m1" = none ↔
      (envBadDate.getMessage "m1" = none ∨
       ∃ msg, envBadDate.getMessage "m1" = some msg
            ∧ is_message_after_start_time envBadDate.pd 0 msg = false) :=
  (get_email_details_absent_characterization envBadDate 0 "m1").1

/-- C10: fetch-and-normalize is total and absorbing towards the pipeline: a
remote-get exception, an unparseable-date message and a stale message all
yield the same `none`, and on `none` the pipeline does the same thing in
every case (no record, no state change, only the attempted get in the
trace) — the pipeline cannot distinguish a fetch failure from a deliberate
stale-message skip. -/
theorem fetch_total_absent_indistinguishable (env : GmailEnv) (s : AppState)
    (mid : String) :
    (env.getMessage mid = none → get_email_details env s.appStartTime mid = none)
  ∧ (∀ msg, env.getMessage mid = some msg →
        is_message_after_start_time env.pd s.appStartTime msg = false →
        get_email_details env s.appStartTime mid = none)
  ∧ (∀ msg, env.getMessage mid = some msg → env.pd (dateStr msg) = none →
        get_email_details env s.appStartTime mid = none)
  ∧ (get_email_details env s.appStartTime mid = none →
        process_email env s mid = (none, s, [Effect.getMessage mid])) := by
  refine ⟨?_, ?_, ?_, ?_⟩
  · intro h; unfold get_email_details; rw [h]
  · intro msg hg hfalse
    unfold get_email_details
    simp [hg, hfalse]
  · intro msg hg hpd
    unfold get_email_details
    simp [hg, is_after_false_of_pd_none hpd]
  · intro h
    unfold process_email
    rw [h]

theorem fetch_total_absent_indistinguishable_witness :
    get_email_details envNoMsgs st0.appStartTime "m1" = none
  ∧ process_email envNoMsgs st0 "m1" = (none, st0, [Effect.getMessage "m1"]) := by
  have h1 := (fetch_total_absent_indistinguishable envNoMsgs st0 "m1").1 rfl
  exact ⟨h1, (fetch_total_absent_indistinguishable envNoMsgs st0 "m1").2.2.2 h1⟩

theorem attachLoop_eq_visited_aux :
    ∀ (n : Nat) (cs : List Payload), sizeOf cs = n →
      attachLoop cs =
        ((visitedParts cs).filter (fun q => fnNonEmpty q.filename)).map infoOf := by
  intro n
  induction n using Nat.strong_induction_on with
  | _ n ih =>
      intro cs hn
      cases cs with
      | nil => rfl
      | cons c rest =>
          subst hn
          have hrest := ih (sizeOf rest) (by simp <;> omega) rest rfl
          simp only [attachLoop, visitedParts, List.filter_append, List.map_append, hrest]
          congr 1
          rcases c with ⟨mt, fn, hs, b, ps⟩
          cases ps with
          | none =>
              by_cases hf : fnNonEmpty fn = true
              · simp [attachEntry, visitedEntry, List.filter_cons, hf,
                      Payload.filename_mk, infoOf, Payload.mimeType_mk, Payload.body_mk]
              · rw [Bool.not_eq_true] at hf
                simp [attachEntry, visitedEntry, List.filter_cons, hf, Payload.filename_mk]
          | some cs' =>
              have hcs' := ih (sizeOf cs') (by simp <;> omega) cs' rfl
              by_cases hf : fnNonEmpty fn = true
              · simp [attachEntry, visitedEntry, List.filter_cons, hf,
                      Payload.filename_mk, infoOf, Payload.mimeType_mk, Payload.body_mk]
              · rw [Bool.not_eq_true] at hf
                simp [attachEntry, visitedEntry, List.filter_cons, hf,
                      Payload.filename_mk, hcs']

/-- C7 counterexample: part `b.pdf` carries a non-empty filename and sits
nested inside the tree, yet it is not collected: its parent `a.pdf` also
carries a filename, and the `elif` of main.py line 225 never descends into a
part that was itself collected — only `a.pdf` is returned. -/
theorem attachment_nested_under_named_part_cex :
    "b.pdf" ∈ allAttachNames [cexAttachTree]
  ∧ extract_attachment_info cexAttachTree
      = [⟨"a.pdf", "application/pdf", 10, some "idA"⟩]
  ∧ AttachmentInfo.mk "b.pdf" "application/pdf" 20 (some "idB")
      ∉ extract_attachment_info cexAttachTree := by
  refine ⟨by decide, by decide, by decide⟩

/-- C7 amended: attachment extraction collects, in traversal order, exactly
the VISITED parts that carry a non-empty filename — regardless of mime type
and through arbitrarily deep nesting of filename-LESS containers — each as
`{filename, mimeType, size (default 0), attachmentId (possibly absent)}`;
visited means: a child of the root, or a child of a visited part not itself
carrying a truthy filename.  A filename-carrying part nested beneath another
filename-carrying part is not visited, and the root's own filename is never
examined. -/
theorem extract_attachment_info_characterization (p : Payload) :
    extract_attachment_info p =
      ((visitedParts (p.parts.getD [])).filter
          (fun q => fnNonEmpty q.filename)).map infoOf := by
  rcases p with ⟨mt, fn, hs, b, ps⟩
  cases ps with
  | none => rfl
  | some cs =>
      show attachLoop cs = _
      simp only [Payload.parts, Option.getD_some]
      exact attachLoop_eq_visited_aux (sizeOf cs) cs rfl
